import Mathlib

/-!
Verification of the tile-capture pipeline of `src/background.js`
(function `TakeScreenshot`) against its specification.

The numeric core of the program is embedded shallowly:

* JS numbers that hold page sizes, tile sizes and byte offsets are
  embedded as `Nat` (they are nonnegative integers in the source);
  scroll coordinates, which may be negative, are embedded as `Int`;
  the device scale factor, which may be fractional, is embedded as `Rat`.
* `Math.trunc` is `jsTrunc` (rounds toward zero).
* The tile planner loop of lines 382 to 385 is `tileRow` / `planTiles`.
* The composite-buffer choice of lines 117 to 152 is `one_canvas` /
  `selectComposite`.
* The mutual-exclusion service (class `Mutex`, not part of `src/`) is
  modelled from the spec as `acquire` / `release` over an association
  list of lease expiry times.
-/

namespace Screenshot

/-- `Math.trunc` on rationals: rounds toward zero. The source only ever
applies it to nonnegative values. -/
def jsTrunc (q : ℚ) : ℤ := if 0 ≤ q then ⌊q⌋ else -⌊-q⌋

/-- `limits[0] = Math.trunc(32767 / scl)` (background.js line 117): the
platform ceiling on a single dimension of a captured surface, in css
pixels at scale `scl`. -/
def limit0 (scl : ℚ) : ℤ := jsTrunc (32767 / scl)

/-- `limits[1] = Math.trunc(472907776 / (scl * scl))` (line 117): the
platform ceiling on the pixel area of a captured surface, in css pixels
at scale `scl`. -/
def limit1 (scl : ℚ) : ℤ := jsTrunc (472907776 / (scl * scl))

/-- `one_canvas = Math.max(rw, rh) <= limits[0] && rw * rh <= limits[1]`
(line 118). -/
def one_canvas (rw rh : ℕ) (scl : ℚ) : Bool :=
  decide (((max rw rh : ℕ) : ℤ) ≤ limit0 scl) &&
    decide (((rw : ℤ) * (rh : ℤ)) ≤ limit1 scl)

/-- `Math.trunc(x * scl)` (line 130): a region dimension converted to
device pixels. -/
def totalDim (x : ℕ) (scl : ℚ) : ℕ := (jsTrunc ((x : ℚ) * scl)).toNat

/-- `[mw, mh]` of lines 358 to 372: the effective per-tile maximum width
and height. With native capture the caps are the region size, `limits[0]`
and the hard ceilings 4095 (horizontal) and 16383 (vertical); without it
the viewport size replaces the region size. -/
def effMax (use_native : Bool) (rw rh vw vh : ℕ) (scl : ℚ) : ℕ × ℕ :=
  if use_native then
    (min rw (min (limit0 scl).toNat 4095), min rh (min (limit0 scl).toNat 16383))
  else
    (min vw (min (limit0 scl).toNat 4095), min vh (min (limit0 scl).toNat 16383))

/-- One tile of the planner: origin `(x, y)` and size `(w, h)`, in
region-local css pixels. -/
structure Tile where
  x : ℕ
  y : ℕ
  w : ℕ
  h : ℕ
deriving DecidableEq

/-- One axis of the planner loop of lines 382 to 385: segments
`(pos, len)` produced by `for (pos = 0; pos < limit; pos += step)` with
`len = (pos + step <= limit ? step : limit - pos)`. The guard `0 < step`
is required for termination; the JS loop does not terminate on a zero
step. -/
def tileRow (limit step pos : ℕ) : List (ℕ × ℕ) :=
  if h : pos < limit ∧ 0 < step then
    (pos, if pos + step ≤ limit then step else limit - pos) :: tileRow limit step (pos + step)
  else
    []
termination_by limit - pos
decreasing_by omega

/-- The row-major tile grid of the nested loop of lines 382 to 385. -/
def planTiles (rw rh mw mh : ℕ) : List Tile :=
  (tileRow rh mh 0).flatMap fun rowSeg =>
    (tileRow rw mw 0).map fun colSeg =>
      { x := colSeg.1, y := rowSeg.1, w := colSeg.2, h := rowSeg.2 }

/-- Point `(p, q)` lies inside tile `t`. -/
def covers (t : Tile) (p q : ℕ) : Prop :=
  t.x ≤ p ∧ p < t.x + t.w ∧ t.y ≤ q ∧ q < t.y + t.h

theorem tileRow_sound (limit step pos : ℕ) :
    ∀ a len, (a, len) ∈ tileRow limit step pos →
      pos ≤ a ∧ a < limit ∧ len = min step (limit - a) := by
  rw [tileRow]
  split
  next hcond =>
    intro a len hmem
    rcases List.mem_cons.mp hmem with heq | htail
    · rw [Prod.mk.injEq] at heq
      obtain ⟨rfl, rfl⟩ := heq
      refine ⟨le_refl _, hcond.1, ?_⟩
      split <;> omega
    · have h := tileRow_sound limit step (pos + step) a len htail
      exact ⟨by omega, h.2.1, h.2.2⟩
  next hcond =>
    intro a len hmem
    simp at hmem
termination_by limit - pos
decreasing_by omega

theorem tileRow_covers (limit step pos p : ℕ) (hstep : 0 < step)
    (hlo : pos ≤ p) (hhi : p < limit) :
    ∃ a len, (a, len) ∈ tileRow limit step pos ∧ a ≤ p ∧ p < a + len := by
  rw [tileRow]
  rw [dif_pos (show pos < limit ∧ 0 < step from ⟨lt_of_le_of_lt hlo hhi, hstep⟩)]
  by_cases hp : p < pos + step
  · refine ⟨pos, if pos + step ≤ limit then step else limit - pos,
      List.mem_cons_self _ _, hlo, ?_⟩
    split <;> omega
  · obtain ⟨a, len, hmem, hcov⟩ :=
      tileRow_covers limit step (pos + step) p hstep (by omega) hhi
    exact ⟨a, len, List.mem_cons_of_mem _ hmem, hcov⟩
termination_by limit - pos
decreasing_by omega

theorem tileRow_disjoint (limit step pos : ℕ) :
    ∀ a1 l1 a2 l2, (a1, l1) ∈ tileRow limit step pos →
      (a2, l2) ∈ tileRow limit step pos → (a1, l1) ≠ (a2, l2) →
      a1 + l1 ≤ a2 ∨ a2 + l2 ≤ a1 := by
  rw [tileRow]
  split
  next hcond =>
    intro a1 l1 a2 l2 h1 h2 hne
    rcases List.mem_cons.mp h1 with heq1 | ht1
    · rcases List.mem_cons.mp h2 with heq2 | ht2
      · exact absurd (heq1.trans heq2.symm) hne
      · rw [Prod.mk.injEq] at heq1
        obtain ⟨rfl, rfl⟩ := heq1
        have h := tileRow_sound limit step _ a2 l2 ht2
        left
        split <;> omega
    · rcases List.mem_cons.mp h2 with heq2 | ht2
      · rw [Prod.mk.injEq] at heq2
        obtain ⟨rfl, rfl⟩ := heq2
        have h := tileRow_sound limit step _ a1 l1 ht1
        right
        split <;> omega
      · exact tileRow_disjoint limit step (pos + step) a1 l1 a2 l2 ht1 ht2 hne
  next hcond =>
    intro a1 l1 a2 l2 h1 h2 hne
    simp at h1
termination_by limit - pos
decreasing_by omega

theorem mem_planTiles (rw rh mw mh : ℕ) (t : Tile) :
    t ∈ planTiles rw rh mw mh ↔
      ((t.x, t.w) ∈ tileRow rw mw 0 ∧ (t.y, t.h) ∈ tileRow rh mh 0) := by
  unfold planTiles
  simp only [List.mem_flatMap, List.mem_map]
  constructor
  · rintro ⟨rs, hrs, cs, hcs, rfl⟩
    exact ⟨by simpa using hcs, by simpa using hrs⟩
  · rintro ⟨hc, hr⟩
    exact ⟨(t.y, t.h), hr, (t.x, t.w), hc, rfl⟩

/-- The three clauses of the partition property of claim C1: every tile
stays inside the region, every point of the region is covered by some
tile, and distinct tiles cover no common point. -/
def TilesPartition (rw rh mw mh : ℕ) : Prop :=
  (∀ t ∈ planTiles rw rh mw mh, ∀ p q, covers t p q → p < rw ∧ q < rh) ∧
  (∀ p q, p < rw → q < rh → ∃ t ∈ planTiles rw rh mw mh, covers t p q) ∧
  (∀ t1 ∈ planTiles rw rh mw mh, ∀ t2 ∈ planTiles rw rh mw mh, t1 ≠ t2 →
    ∀ p q, covers t1 p q → ¬ covers t2 p q)

/-- C1: for positive region dimensions and positive per-tile maxima, the
planner loop of lines 382 to 385 partitions the region exactly: tiles
stay inside the region, are pairwise disjoint, and their union is the
whole rectangle. -/
theorem c1_planner_partitions (rw rh mw mh : ℕ) (hrw : 0 < rw) (hrh : 0 < rh)
    (hmw : 0 < mw) (hmh : 0 < mh) : TilesPartition rw rh mw mh := by
  refine ⟨?_, ?_, ?_⟩
  · intro t ht p q hcov
    obtain ⟨hcx, hcy⟩ := (mem_planTiles rw rh mw mh t).mp ht
    have hx := tileRow_sound rw mw 0 t.x t.w hcx
    have hy := tileRow_sound rh mh 0 t.y t.h hcy
    obtain ⟨h1, h2, h3, h4⟩ := hcov
    omega
  · intro p q hp hq
    obtain ⟨a, len, hmem, hcov⟩ := tileRow_covers rw mw 0 p hmw (Nat.zero_le p) hp
    obtain ⟨b, len2, hmem2, hcov2⟩ := tileRow_covers rh mh 0 q hmh (Nat.zero_le q) hq
    refine ⟨⟨a, b, len, len2⟩, ?_, ?_⟩
    · rw [mem_planTiles]
      exact ⟨hmem, hmem2⟩
    · exact ⟨hcov.1, hcov.2, hcov2.1, hcov2.2⟩
  · intro t1 h1 t2 h2 hne p q hc1 hc2
    obtain ⟨hcx1, hcy1⟩ := (mem_planTiles rw rh mw mh t1).mp h1
    obtain ⟨hcx2, hcy2⟩ := (mem_planTiles rw rh mw mh t2).mp h2
    obtain ⟨a1, b1, c1, d1⟩ := hc1
    obtain ⟨a2, b2, c2, d2⟩ := hc2
    by_cases hxeq : (t1.x, t1.w) = (t2.x, t2.w)
    · have hyne : (t1.y, t1.h) ≠ (t2.y, t2.h) := by
        intro hyeq
        apply hne
        rw [Prod.mk.injEq] at hxeq hyeq
        cases t1
        cases t2
        simp only [Tile.mk.injEq]
        exact ⟨hxeq.1, hyeq.1, hxeq.2, hyeq.2⟩
      have hdisj := tileRow_disjoint rh mh 0 t1.y t1.h t2.y t2.h hcy1 hcy2 hyne
      omega
    · have hdisj := tileRow_disjoint rw mw 0 t1.x t1.w t2.x t2.w hcx1 hcx2 hxeq
      omega

/-- Witness for C1 at the concrete instance `rw = 5`, `rh = 3`,
`mw = 2`, `mh = 2`. -/
theorem c1_witness :
    0 < 5 ∧ 0 < 3 ∧ 0 < 2 ∧ 0 < 2 ∧ TilesPartition 5 3 2 2 :=
  ⟨by norm_num, by norm_num, by norm_num, by norm_num,
    c1_planner_partitions 5 3 2 2 (by norm_num) (by norm_num) (by norm_num) (by norm_num)⟩

theorem jsTrunc_of_nonneg (q : ℚ) (h : 0 ≤ q) : jsTrunc q = ⌊q⌋ := if_pos h

theorem limit0_toNat_cast (scl : ℚ) (h0 : 0 < scl) :
    (((limit0 scl).toNat : ℤ) : ℚ) ≤ 32767 / scl := by
  have hq : (0 : ℚ) ≤ 32767 / scl := by positivity
  have hfl : limit0 scl = ⌊(32767 : ℚ) / scl⌋ := jsTrunc_of_nonneg _ hq
  have hnn : 0 ≤ ⌊(32767 : ℚ) / scl⌋ := Int.floor_nonneg.mpr hq
  have htn : ((limit0 scl).toNat : ℤ) = limit0 scl := by
    rw [hfl]
    exact Int.toNat_of_nonneg hnn
  rw [htn, hfl]
  exact_mod_cast Int.floor_le ((32767 : ℚ) / scl)

/-- Arithmetic core of the amended claim C2: for scale at most 3.5, the
product of the scale-capped dimension ceilings stays below the area
limit `limits[1]`. -/
theorem tileArea_le_limit1 (scl : ℚ) (h0 : 0 < scl) (h1 : scl ≤ 7 / 2) :
    ((min (limit0 scl).toNat 4095 * min (limit0 scl).toNat 16383 : ℕ) : ℤ) ≤ limit1 scl := by
  have hL : ((limit0 scl).toNat : ℚ) * scl ≤ 32767 := by
    have := limit0_toNat_cast scl h0
    rw [← le_div_iff₀ h0]
    exact_mod_cast this
  have ha : ((min (limit0 scl).toNat 4095 : ℕ) : ℚ) ≤ 4095 := by
    exact_mod_cast Nat.cast_le.mpr (min_le_right _ _)
  have ha0 : (0 : ℚ) ≤ ((min (limit0 scl).toNat 4095 : ℕ) : ℚ) := Nat.cast_nonneg _
  have hbL : ((min (limit0 scl).toNat 16383 : ℕ) : ℚ) ≤ ((limit0 scl).toNat : ℚ) := by
    exact_mod_cast Nat.cast_le.mpr (min_le_left _ _)
  have hb : ((min (limit0 scl).toNat 16383 : ℕ) : ℚ) * scl ≤ 32767 :=
    le_trans (mul_le_mul_of_nonneg_right hbL h0.le) hL
  have hb0 : (0 : ℚ) ≤ ((min (limit0 scl).toNat 16383 : ℕ) : ℚ) := Nat.cast_nonneg _
  have hkey : ((min (limit0 scl).toNat 4095 * min (limit0 scl).toNat 16383 : ℕ) : ℚ) *
      (scl * scl) ≤ 472907776 := by
    rw [Nat.cast_mul]
    calc ((min (limit0 scl).toNat 4095 : ℕ) : ℚ) * ((min (limit0 scl).toNat 16383 : ℕ) : ℚ) *
          (scl * scl)
        = ((min (limit0 scl).toNat 4095 : ℕ) : ℚ) *
            ((((min (limit0 scl).toNat 16383 : ℕ) : ℚ) * scl) * scl) := by ring
      _ ≤ 4095 * ((((min (limit0 scl).toNat 16383 : ℕ) : ℚ) * scl) * scl) := by
          apply mul_le_mul_of_nonneg_right ha
          positivity
      _ ≤ 4095 * (32767 * scl) := by
          apply mul_le_mul_of_nonneg_left _ (by norm_num)
          exact mul_le_mul_of_nonneg_right hb h0.le
      _ ≤ 4095 * (32767 * (7 / 2)) := by
          apply mul_le_mul_of_nonneg_left _ (by norm_num)
          exact mul_le_mul_of_nonneg_left h1 (by norm_num)
      _ ≤ 472907776 := by norm_num
  have hq : (0 : ℚ) ≤ 472907776 / (scl * scl) := by positivity
  rw [limit1, jsTrunc_of_nonneg _ hq]
  rw [Int.le_floor]
  rw [le_div_iff₀ (by positivity)]
  exact_mod_cast hkey

/-- The effective per-tile maxima never exceed the scale-capped
dimension ceilings, in either capture mode. -/
theorem effMax_le (use_native : Bool) (rw rh vw vh : ℕ) (scl : ℚ) :
    (effMax use_native rw rh vw vh scl).1 ≤ min (limit0 scl).toNat 4095 ∧
    (effMax use_native rw rh vw vh scl).2 ≤ min (limit0 scl).toNat 16383 := by
  unfold effMax
  split <;> exact ⟨min_le_right _ _, min_le_right _ _⟩

/-- The tile bounds of claim C2: every planned tile fits the effective
maximum width and height, and its pixel area fits the area limit
`limits[1]`. -/
def C2Bounds (use_native : Bool) (rw rh vw vh : ℕ) (scl : ℚ) : Prop :=
  ∀ t ∈ planTiles rw rh (effMax use_native rw rh vw vh scl).1
      (effMax use_native rw rh vw vh scl).2,
    t.w ≤ (effMax use_native rw rh vw vh scl).1 ∧
    t.h ≤ (effMax use_native rw rh vw vh scl).2 ∧
    (t.w : ℤ) * (t.h : ℤ) ≤ limit1 scl

/-- C2, amended: for every capture request with positive scale at most
3.5, every tile emitted by the planner has width at most the effective
max width, height at most the effective max height, and area at most
`trunc(472907776 / scale^2)`. (As originally stated the claim fails at
scale 4, see the counterexample.) -/
theorem c2_tile_bounds (use_native : Bool) (rw rh vw vh : ℕ) (scl : ℚ)
    (h0 : 0 < scl) (h1 : scl ≤ 7 / 2) : C2Bounds use_native rw rh vw vh scl := by
  intro t ht
  obtain ⟨hcx, hcy⟩ := (mem_planTiles _ _ _ _ t).mp ht
  have hx := tileRow_sound _ _ 0 t.x t.w hcx
  have hy := tileRow_sound _ _ 0 t.y t.h hcy
  have hle := effMax_le use_native rw rh vw vh scl
  have hw : t.w ≤ (effMax use_native rw rh vw vh scl).1 := by omega
  have hh : t.h ≤ (effMax use_native rw rh vw vh scl).2 := by omega
  refine ⟨hw, hh, ?_⟩
  have harea : t.w * t.h ≤ min (limit0 scl).toNat 4095 * min (limit0 scl).toNat 16383 :=
    Nat.mul_le_mul (by omega) (by omega)
  calc (t.w : ℤ) * (t.h : ℤ)
      = ((t.w * t.h : ℕ) : ℤ) := by push_cast; ring
    _ ≤ ((min (limit0 scl).toNat 4095 * min (limit0 scl).toNat 16383 : ℕ) : ℤ) := by
        exact_mod_cast harea
    _ ≤ limit1 scl := tileArea_le_limit1 scl h0 h1

/-- Witness for the amended C2 at scale 2, region 5000 x 20000. -/
theorem c2_witness :
    (0 : ℚ) < 2 ∧ (2 : ℚ) ≤ 7 / 2 ∧ C2Bounds true 5000 20000 0 0 2 :=
  ⟨by norm_num, by norm_num,
    c2_tile_bounds true 5000 20000 0 0 2 (by norm_num) (by norm_num)⟩

theorem tileRow_step (limit step pos : ℕ) (h1 : pos < limit) (h2 : 0 < step)
    (h3 : pos + step ≤ limit) :
    tileRow limit step pos = (pos, step) :: tileRow limit step (pos + step) := by
  rw [tileRow]
  rw [dif_pos ⟨h1, h2⟩, if_pos h3]

theorem tileRow_last (limit step pos : ℕ) (h1 : pos < limit) (h2 : 0 < step)
    (h3 : limit < pos + step) :
    tileRow limit step pos = [(pos, limit - pos)] := by
  rw [tileRow]
  rw [dif_pos ⟨h1, h2⟩, if_neg (by omega)]
  rw [tileRow]
  rw [dif_neg (by omega)]

theorem tileRow_stop (limit step pos : ℕ) (h : limit ≤ pos) :
    tileRow limit step pos = [] := by
  rw [tileRow]
  rw [dif_neg (by omega)]

theorem limit0_four : limit0 4 = 8191 := by
  rw [limit0, jsTrunc_of_nonneg _ (by norm_num)]
  rw [Int.floor_eq_iff] <;> norm_num

theorem limit1_four : limit1 4 = 29556736 := by
  rw [limit1, jsTrunc_of_nonneg _ (by norm_num)]
  rw [Int.floor_eq_iff] <;> norm_num

theorem effMax_scale4 : effMax true 100000 100000 0 0 4 = (4095, 8191) := by
  unfold effMax
  rw [limit0_four]
  decide

/-- C2, counterexample to the claim as stated: at scale 4 with a
100000 x 100000 region the planner emits the tile at the origin of size
4095 x 8191, whose area 33542145 exceeds
`trunc(472907776 / 4^2) = 29556736`. -/
theorem c2_counterexample :
    (⟨0, 0, 4095, 8191⟩ : Tile) ∈
      planTiles 100000 100000 (effMax true 100000 100000 0 0 4).1
        (effMax true 100000 100000 0 0 4).2 ∧
    ¬ (((4095 : ℕ) : ℤ) * ((8191 : ℕ) : ℤ) ≤ limit1 4) := by
  constructor
  · rw [effMax_scale4]
    rw [mem_planTiles]
    constructor
    · rw [tileRow_step 100000 4095 0 (by norm_num) (by norm_num) (by norm_num)]
      exact List.mem_cons_self _ _
    · rw [tileRow_step 100000 8191 0 (by norm_num) (by norm_num) (by norm_num)]
      exact List.mem_cons_self _ _
  · rw [limit1_four]
    norm_num

/-- The composite buffer of one request: a drawable canvas surface
(line 132 to 136), a raw pixel byte buffer (lines 137 to 152), or the
ImageTooLarge abort when the byte count reaches
`Number.MAX_SAFE_INTEGER` (lines 140 to 150). -/
inductive Composite where
  | canvas (w h : ℕ)
  | rawBuffer (size : ℕ)
  | tooLarge
deriving DecidableEq

def isCanvas : Composite → Bool
  | Composite.canvas _ _ => true
  | _ => false

def isRaw : Composite → Bool
  | Composite.rawBuffer _ => true
  | _ => false

/-- Lines 130 to 152: the composite buffer choice. With `one_canvas` a
canvas of `totalWidth x totalHeight` device pixels is created; otherwise
a byte buffer of `totalWidth * totalHeight * 4` bytes is allocated when
that count is below `Number.MAX_SAFE_INTEGER = 9007199254740991`, and
the request aborts with ImageTooLarge when it is not. -/
def selectComposite (rw rh : ℕ) (scl : ℚ) : Composite :=
  if one_canvas rw rh scl then
    Composite.canvas (totalDim rw scl) (totalDim rh scl)
  else if totalDim rw scl * totalDim rh scl * 4 < 9007199254740991 then
    Composite.rawBuffer (totalDim rw scl * totalDim rh scl * 4)
  else
    Composite.tooLarge

theorem one_canvas_iff (rw rh : ℕ) (scl : ℚ) :
    one_canvas rw rh scl = true ↔
      (((max rw rh : ℕ) : ℤ) ≤ limit0 scl ∧ (rw : ℤ) * (rh : ℤ) ≤ limit1 scl) := by
  simp [one_canvas]

theorem limit0_one : limit0 1 = 32767 := by
  rw [limit0, jsTrunc_of_nonneg _ (by norm_num)]
  rw [Int.floor_eq_iff] <;> norm_num

theorem limit1_one : limit1 1 = 472907776 := by
  rw [limit1, jsTrunc_of_nonneg _ (by norm_num)]
  rw [Int.floor_eq_iff] <;> norm_num

theorem totalDim_one (x : ℕ) : totalDim x 1 = x := by
  rw [totalDim, mul_one, jsTrunc_of_nonneg _ (Nat.cast_nonneg x), Int.floor_natCast]
  exact Int.toNat_natCast x

/-- The three clauses of the amended claim C3: the single-canvas
composite is chosen exactly when the region passes both platform
limits; a chosen canvas has the total device-pixel size of the region;
and otherwise, when the byte count fits below the safe-integer bound,
the raw byte buffer of size `totalWidth * totalHeight * 4` is chosen. -/
def C3Selection (rw rh : ℕ) (scl : ℚ) : Prop :=
  (isCanvas (selectComposite rw rh scl) = true ↔
    ((rw : ℤ) * (rh : ℤ) ≤ limit1 scl ∧ ((max rw rh : ℕ) : ℤ) ≤ limit0 scl)) ∧
  (∀ w h, selectComposite rw rh scl = Composite.canvas w h →
    w = totalDim rw scl ∧ h = totalDim rh scl) ∧
  (isCanvas (selectComposite rw rh scl) = false →
    totalDim rw scl * totalDim rh scl * 4 < 9007199254740991 →
    selectComposite rw rh scl =
      Composite.rawBuffer (totalDim rw scl * totalDim rh scl * 4))

/-- C3, amended: the drawable-surface composite is selected if and only
if `rw * rh <= trunc(472907776 / scl^2)` and
`max rw rh <= trunc(32767 / scl)`; in that case the canvas spans the
whole region in device pixels (though the planner may still split the
region into several capture tiles), and otherwise, when the byte count
fits below `Number.MAX_SAFE_INTEGER`, the raw
`totalWidth * totalHeight * 4` byte buffer is allocated. (The original
claim also asserted that the canvas case uses a single tile; the
counterexample refutes that part.) -/
theorem c3_composite_selection (rw rh : ℕ) (scl : ℚ) : C3Selection rw rh scl := by
  refine ⟨?_, ?_, ?_⟩
  · by_cases h : one_canvas rw rh scl = true
    · rw [selectComposite, if_pos h]
      have hc := (one_canvas_iff rw rh scl).mp h
      exact ⟨fun _ => ⟨hc.2, hc.1⟩, fun _ => rfl⟩
    · rw [selectComposite, if_neg h]
      have hc : ¬ (((max rw rh : ℕ) : ℤ) ≤ limit0 scl ∧ (rw : ℤ) * (rh : ℤ) ≤ limit1 scl) :=
        fun hcc => h ((one_canvas_iff rw rh scl).mpr hcc)
      constructor
      · intro hfalse
        exfalso
        revert hfalse
        split <;> simp [isCanvas]
      · intro hcc
        exact absurd ⟨hcc.2, hcc.1⟩ hc
  · intro w h heq
    rw [selectComposite] at heq
    by_cases hoc : one_canvas rw rh scl = true
    · rw [if_pos hoc] at heq
      injection heq with h1 h2
      exact ⟨h1.symm, h2.symm⟩
    · rw [if_neg hoc] at heq
      revert heq
      split <;> intro heq <;> cases heq
  · intro hnc hsize
    rw [selectComposite] at hnc ⊢
    by_cases hoc : one_canvas rw rh scl = true
    · rw [if_pos hoc] at hnc
      simp [isCanvas] at hnc
    · rw [if_neg hoc, if_pos hsize]

theorem one_canvas_5000_500 : one_canvas 5000 500 1 = true := by
  unfold one_canvas
  rw [limit0_one, limit1_one]
  decide

theorem effMax_5000_500 : effMax true 5000 500 0 0 1 = (4095, 500) := by
  unfold effMax
  rw [limit0_one]
  decide

/-- C3, counterexample to the claim as stated: for the 5000 x 500 region
at scale 1 the single-canvas composite is selected, yet the planner
splits the region into two tiles, not one. -/
theorem c3_counterexample :
    isCanvas (selectComposite 5000 500 1) = true ∧
    (planTiles 5000 500 (effMax true 5000 500 0 0 1).1
      (effMax true 5000 500 0 0 1).2).length = 2 := by
  constructor
  · rw [selectComposite, if_pos one_canvas_5000_500]
    rfl
  · rw [effMax_5000_500]
    unfold planTiles
    rw [tileRow_step 5000 4095 0 (by norm_num) (by norm_num) (by norm_num)]
    rw [tileRow_last 5000 4095 (0 + 4095) (by norm_num) (by norm_num) (by norm_num)]
    rw [tileRow_step 500 500 0 (by norm_num) (by norm_num) (by norm_num)]
    rw [tileRow_stop 500 500 (0 + 500) (by norm_num)]
    rfl

theorem one_canvas_5000_20000 : one_canvas 5000 20000 1 = true := by
  unfold one_canvas
  rw [limit0_one, limit1_one]
  decide

/-- C4, counterexample to the claim as stated: for the 5000 x 20000
region at scale 1 the drawable-surface (single-canvas) composite is
selected, not the raw pixel-buffer composite. -/
theorem c4_counterexample :
    selectComposite 5000 20000 1 = Composite.canvas 5000 20000 ∧
    isRaw (selectComposite 5000 20000 1) = false := by
  have h : selectComposite 5000 20000 1 = Composite.canvas 5000 20000 := by
    rw [selectComposite, if_pos one_canvas_5000_20000, totalDim_one, totalDim_one]
  exact ⟨h, by rw [h]; rfl⟩

/-- The end-to-end facts of the amended claim C4 for the 5000 x 20000
request at scale 1: the effective tile maxima are 4095 x 16383, every
planned tile respects them, the tiles cover the whole region, and the
drawable-surface composite is selected. -/
def C4Grid : Prop :=
  effMax true 5000 20000 0 0 1 = (4095, 16383) ∧
  (∀ t ∈ planTiles 5000 20000 4095 16383, t.w ≤ 4095 ∧ t.h ≤ 16383) ∧
  (∀ p q, p < 5000 → q < 20000 → ∃ t ∈ planTiles 5000 20000 4095 16383, covers t p q) ∧
  selectComposite 5000 20000 1 = Composite.canvas 5000 20000

/-- C4, amended: region 5000 x 20000 at scale 1 with dimension limits
4095 (horizontal) and 16383 (vertical) is tiled by tiles covering the
full region, none wider than 4095 or taller than 16383; the
drawable-surface (single-canvas) composite is selected for this request,
not the raw pixel buffer that the original claim named. -/
theorem c4_end_to_end : C4Grid := by
  refine ⟨?_, ?_, ?_, ?_⟩
  · unfold effMax
    rw [limit0_one]
    decide
  · intro t ht
    obtain ⟨hcx, hcy⟩ := (mem_planTiles _ _ _ _ t).mp ht
    have hx := tileRow_sound _ _ 0 t.x t.w hcx
    have hy := tileRow_sound _ _ 0 t.y t.h hcy
    omega
  · intro p q hp hq
    obtain ⟨a, len, hmem, hcov⟩ :=
      tileRow_covers 5000 4095 0 p (by norm_num) (Nat.zero_le p) hp
    obtain ⟨b, len2, hmem2, hcov2⟩ :=
      tileRow_covers 20000 16383 0 q (by norm_num) (Nat.zero_le q) hq
    refine ⟨⟨a, b, len, len2⟩, ?_, ?_⟩
    · rw [mem_planTiles]
      exact ⟨hmem, hmem2⟩
    · exact ⟨hcov.1, hcov.2, hcov2.1, hcov2.2⟩
  · rw [selectComposite, if_pos one_canvas_5000_20000, totalDim_one, totalDim_one]

/-- Modelled from the spec: the mutual-exclusion service of section 4.1
(class `Mutex` of the source is not included under `src/`). The state is
an association list from lock key to the absolute expiry time of the
current lease. -/
structure Mutex where
  table : List (String × ℕ)
deriving DecidableEq

def getEntry : List (String × ℕ) → String → Option ℕ
  | [], _ => none
  | (k, e) :: rest, key => if k = key then some e else getEntry rest key

def removeEntry (t : List (String × ℕ)) (key : String) : List (String × ℕ) :=
  t.filter fun e => decide (e.1 ≠ key)

def setEntry (t : List (String × ℕ)) (key : String) (expiry : ℕ) : List (String × ℕ) :=
  (key, expiry) :: removeEntry t key

/-- Modelled from the spec: non-blocking acquire returns true and
installs a lease of `lock_time` when the key is free or the current
lease has expired; it returns false and changes nothing when the key is
held and unexpired. -/
def acquire (m : Mutex) (now : ℕ) (key : String) (lock_time : ℕ) : Bool × Mutex :=
  match getEntry m.table key with
  | none => (true, ⟨setEntry m.table key (now + lock_time)⟩)
  | some expiry =>
      if now < expiry then (false, m)
      else (true, ⟨setEntry m.table key (now + lock_time)⟩)

/-- Modelled from the spec: release clears ownership unconditionally. -/
def release (m : Mutex) (key : String) : Mutex := ⟨removeEntry m.table key⟩

theorem acquire_of_free (m : Mutex) (now key lock_time) (h : getEntry m.table key = none) :
    acquire m now key lock_time = (true, ⟨setEntry m.table key (now + lock_time)⟩) := by
  unfold acquire
  rw [h]

theorem acquire_of_held (m : Mutex) (now key lock_time) (e : ℕ)
    (h : getEntry m.table key = some e) :
    acquire m now key lock_time =
      if now < e then (false, m) else (true, ⟨setEntry m.table key (now + lock_time)⟩) := by
  unfold acquire
  rw [h]

theorem keys_setEntry_nodup (t : List (String × ℕ)) (key : String) (v : ℕ)
    (h : (t.map Prod.fst).Nodup) : ((setEntry t key v).map Prod.fst).Nodup := by
  unfold setEntry removeEntry
  rw [List.map_cons, List.nodup_cons]
  constructor
  · intro hmem
    obtain ⟨e, hef, hk⟩ := List.mem_map.mp hmem
    have := (List.mem_filter.mp hef).2
    simp only [decide_eq_true_eq] at this
    exact this hk
  · exact h.sublist ((List.filter_sublist t).map Prod.fst)

/-- The mutex contract of claim C9: on a free key, acquire returns true;
a second acquire before lease expiry returns false; an acquire at or
after expiry returns true without any release; and the table keeps at
most one entry per key. -/
def C9Contract (m0 : Mutex) (key : String) (lock_time t0 t1 t2 : ℕ) : Prop :=
  (acquire m0 t0 key lock_time).1 = true ∧
  (acquire (acquire m0 t0 key lock_time).2 t1 key lock_time).1 = false ∧
  (acquire (acquire m0 t0 key lock_time).2 t2 key lock_time).1 = true ∧
  (((acquire m0 t0 key lock_time).2.table.map Prod.fst).Nodup)

/-- C9: two sequential non-blocking acquires on the same unexpired key
return true then false; after the lease expires a further acquire
returns true even though the holder never released; and each key has at
most one holder entry at any instant. -/
theorem c9_mutex_contract (m0 : Mutex) (key : String) (lock_time t0 t1 t2 : ℕ)
    (hfree : getEntry m0.table key = none)
    (hnodup : (m0.table.map Prod.fst).Nodup)
    (h1 : t1 < t0 + lock_time) (h2 : t0 + lock_time ≤ t2) :
    C9Contract m0 key lock_time t0 t1 t2 := by
  have hacq : acquire m0 t0 key lock_time =
      (true, ⟨setEntry m0.table key (t0 + lock_time)⟩) :=
    acquire_of_free m0 t0 key lock_time hfree
  have hget : getEntry (Mutex.mk (setEntry m0.table key (t0 + lock_time))).table key =
      some (t0 + lock_time) := by
    show getEntry (setEntry m0.table key (t0 + lock_time)) key = some (t0 + lock_time)
    unfold setEntry getEntry
    rw [if_pos rfl]
  refine ⟨by rw [hacq], ?_, ?_, ?_⟩
  · rw [hacq]
    rw [acquire_of_held _ t1 key lock_time _ hget]
    rw [if_pos h1]
  · rw [hacq]
    rw [acquire_of_held _ t2 key lock_time _ hget]
    rw [if_neg (show ¬ t2 < t0 + lock_time by omega)]
  · rw [hacq]
    exact keys_setEntry_nodup m0.table key (t0 + lock_time) hnodup

/-- Witness for C9 on the worker key with the 15 minute lease of
line 487. -/
theorem c9_witness :
    getEntry (Mutex.mk []).table "worker" = none ∧
    ((Mutex.mk [] : Mutex).table.map Prod.fst).Nodup ∧
    1 < 0 + 900000 ∧ 0 + 900000 ≤ 900000 ∧
    C9Contract ⟨[]⟩ "worker" 900000 0 1 900000 :=
  ⟨rfl, List.nodup_nil, by norm_num, by norm_num,
    c9_mutex_contract ⟨[]⟩ "worker" 900000 0 1 900000 rfl List.nodup_nil
      (by norm_num) (by norm_num)⟩

/-- Observable side effects of the planning phase of `TakeScreenshot`
(up to line 152): disabling the toolbar button, the two size
notifications, queuing a capture for a tile, and creating a download.
Captures and downloads never occur during this phase; they are listed so
that their absence is expressible. -/
inductive Action where
  | disableButton (tabId : ℕ)
  | alarmImageTooLarge
  | notifyImageVeryLarge
  | captureTile (t : Tile)
  | download
deriving DecidableEq

/-- How the planning phase ends: the request is dropped by the
per-tab lock (line 105), aborted as ImageTooLarge (line 149), or
proceeds to capture the planned tiles into the chosen composite. -/
inductive PlanOutcome where
  | dropped
  | aborted (size : ℕ)
  | proceed (comp : Composite) (tiles : List Tile)
deriving DecidableEq

structure PlanResult where
  actions : List Action
  outcome : PlanOutcome
  mutexAfter : Mutex
deriving DecidableEq

/-- `key = 'browserAction-' + tab.id` (line 99). -/
def tabKey (tabId : ℕ) : String := "browserAction-" ++ toString tabId

def tilesOf : PlanOutcome → List Tile
  | PlanOutcome.proceed _ ts => ts
  | _ => []

/-- Lines 98 to 152 and 358 to 385 of `TakeScreenshot`: acquire the
per-tab lock without retry (returning at once when it is held), disable
the toolbar button, choose the composite buffer, and plan the tile
grid. A dropped or aborted outcome ends the request before any capture
job is queued. -/
def planPhase (m : Mutex) (now tabId : ℕ) (use_native : Bool)
    (rw rh vw vh : ℕ) (scl : ℚ) : PlanResult :=
  match acquire m now (tabKey tabId) (1000 * 60 * 5) with
  | (false, _) => ⟨[], PlanOutcome.dropped, m⟩
  | (true, m1) =>
      match selectComposite rw rh scl with
      | Composite.canvas w h =>
          ⟨[Action.disableButton tabId],
            PlanOutcome.proceed (Composite.canvas w h)
              (planTiles rw rh (effMax use_native rw rh vw vh scl).1
                (effMax use_native rw rh vw vh scl).2),
            m1⟩
      | Composite.rawBuffer size =>
          ⟨[Action.disableButton tabId, Action.notifyImageVeryLarge],
            PlanOutcome.proceed (Composite.rawBuffer size)
              (planTiles rw rh (effMax use_native rw rh vw vh scl).1
                (effMax use_native rw rh vw vh scl).2),
            m1⟩
      | Composite.tooLarge =>
          ⟨[Action.disableButton tabId, Action.alarmImageTooLarge],
            PlanOutcome.aborted (totalDim rw scl * totalDim rh scl * 4),
            m1⟩

/-- The dropped-request property of claim C7: the non-blocking acquire
returns false, the planning phase performs no action and changes no
state, and no tile is handed to the capture stage. -/
def C7Dropped (m : Mutex) (now tabId : ℕ) (use_native : Bool)
    (rw rh vw vh : ℕ) (scl : ℚ) : Prop :=
  (acquire m now (tabKey tabId) (1000 * 60 * 5)).1 = false ∧
  planPhase m now tabId use_native rw rh vw vh scl = ⟨[], PlanOutcome.dropped, m⟩ ∧
  tilesOf (planPhase m now tabId use_native rw rh vw vh scl).outcome = []

/-- C7: a request arriving while another holds the per-tab lock with an
unexpired lease sees the non-blocking acquire return false and returns
at once: no capture, no page mutation, no buffer allocation; the request
is dropped, not queued. -/
theorem c7_second_request_dropped (m : Mutex) (now tabId : ℕ) (use_native : Bool)
    (rw rh vw vh : ℕ) (scl : ℚ) (e : ℕ)
    (hheld : getEntry m.table (tabKey tabId) = some e) (hunexp : now < e) :
    C7Dropped m now tabId use_native rw rh vw vh scl := by
  have hacq : acquire m now (tabKey tabId) (1000 * 60 * 5) = (false, m) := by
    rw [acquire_of_held _ now _ _ _ hheld]
    rw [if_pos hunexp]
  refine ⟨by rw [hacq], ?_, ?_⟩
  · simp [planPhase, hacq]
  · simp [planPhase, hacq, tilesOf]

/-- Witness for C7: a second request on tab 3 at time 5 while the lock
is held until time 10. -/
theorem c7_witness :
    getEntry (Mutex.mk [(tabKey 3, 10)]).table (tabKey 3) = some 10 ∧
    5 < 10 ∧
    C7Dropped ⟨[(tabKey 3, 10)]⟩ 5 3 true 100 100 100 100 1 :=
  ⟨by simp [getEntry], by norm_num,
    c7_second_request_dropped ⟨[(tabKey 3, 10)]⟩ 5 3 true 100 100 100 100 1 10
      (by simp [getEntry]) (by norm_num)⟩

/-- The abort property of claim C8: when the raw buffer would need at
least `Number.MAX_SAFE_INTEGER` bytes the planning phase ends in the
ImageTooLarge abort with the alarm reported, no tile is handed to the
capture stage, no capture action is emitted, and no download is
created. -/
def C8Aborted (m : Mutex) (now tabId : ℕ) (use_native : Bool)
    (rw rh vw vh : ℕ) (scl : ℚ) : Prop :=
  planPhase m now tabId use_native rw rh vw vh scl =
    ⟨[Action.disableButton tabId, Action.alarmImageTooLarge],
      PlanOutcome.aborted (totalDim rw scl * totalDim rh scl * 4),
      ⟨setEntry m.table (tabKey tabId) (now + 1000 * 60 * 5)⟩⟩ ∧
  tilesOf (planPhase m now tabId use_native rw rh vw vh scl).outcome = [] ∧
  (∀ t, Action.captureTile t ∉ (planPhase m now tabId use_native rw rh vw vh scl).actions) ∧
  Action.download ∉ (planPhase m now tabId use_native rw rh vw vh scl).actions

/-- C8: a multi-tile request whose raw buffer would need
`totalWidth * totalHeight * 4 >= Number.MAX_SAFE_INTEGER` bytes aborts
with ImageTooLarge before any capture is issued; the error is reported
and no download is created. -/
theorem c8_image_too_large (m : Mutex) (now tabId : ℕ) (use_native : Bool)
    (rw rh vw vh : ℕ) (scl : ℚ)
    (hfree : getEntry m.table (tabKey tabId) = none)
    (hone : one_canvas rw rh scl = false)
    (hsize : 9007199254740991 ≤ totalDim rw scl * totalDim rh scl * 4) :
    C8Aborted m now tabId use_native rw rh vw vh scl := by
  have hacq : acquire m now (tabKey tabId) (1000 * 60 * 5) =
      (true, ⟨setEntry m.table (tabKey tabId) (now + 1000 * 60 * 5)⟩) :=
    acquire_of_free m now (tabKey tabId) (1000 * 60 * 5) hfree
  have hsel : selectComposite rw rh scl = Composite.tooLarge := by
    rw [selectComposite, if_neg (by simp [hone]), if_neg (by omega)]
  refine ⟨?_, ?_, ?_, ?_⟩
  · simp [planPhase, hacq, hsel]
  · simp [planPhase, hacq, hsel, tilesOf]
  · intro t
    simp [planPhase, hacq, hsel]
  · simp [planPhase, hacq, hsel]

/-- Witness for C8: a 50000000 x 50000000 region at scale 1 needs
10^16 bytes, beyond the safe-integer bound. -/
theorem c8_witness :
    getEntry (Mutex.mk []).table (tabKey 1) = none ∧
    one_canvas 50000000 50000000 1 = false ∧
    9007199254740991 ≤ totalDim 50000000 1 * totalDim 50000000 1 * 4 ∧
    C8Aborted ⟨[]⟩ 0 1 true 50000000 50000000 0 0 1 :=
  ⟨rfl,
    by unfold one_canvas; rw [limit0_one, limit1_one]; decide,
    by rw [totalDim_one]; norm_num,
    c8_image_too_large ⟨[]⟩ 0 1 true 50000000 50000000 0 0 1 rfl
      (by unfold one_canvas; rw [limit0_one, limit1_one]; decide)
      (by rw [totalDim_one]; norm_num)⟩

/-- Undo effects run by the restore functions: removing an injected
style sheet and restoring the window scroll position. -/
inductive Effect where
  | insertCSS (code : ℕ)
  | removeCSS (code : ℕ)
  | scrollTo (x y : ℤ)
deriving DecidableEq

/-- The one mutable bit of the restore closures of lines 188 to 196 and
308 to 314: whether `restoreScrollPosition` still holds the real undo
work. The first call replaces it with a resolved no-op. -/
structure RestoreState where
  armed : Bool
deriving DecidableEq

/-- One call of `restoreScrollPosition`: when armed, disarm and run the
undo effects; otherwise return without effects (lines 188 to 189 and
308 to 309). -/
def restoreOnce (undo : List Effect) (s : RestoreState) : RestoreState × List Effect :=
  if s.armed then (⟨false⟩, undo) else (s, [])

/-- `restoreN undo n s`: call the restore function `n` times, collecting
the effects of every call in order. -/
def restoreN (undo : List Effect) : ℕ → RestoreState → RestoreState × List Effect
  | 0, s => (s, [])
  | n + 1, s =>
      let r1 := restoreOnce undo s
      let r2 := restoreN undo n r1.1
      (r2.1, r1.2 ++ r2.2)

/-- The undo work of the transform-based strategy (lines 187 to 196):
remove every style sheet recorded in `tasks`, then run the
`window.scrollTo(sx + spx, sy + spy)` restore script. -/
def cssRestoreUndo (tasks : List ℕ) (sx spx sy spy : ℤ) : List Effect :=
  tasks.map Effect.removeCSS ++ [Effect.scrollTo (sx + spx) (sy + spy)]

/-- The undo work of the scroll-based strategy (lines 308 to 314): run
the `window.scrollTo(sx + spx, sy + spy)` restore script. -/
def jsRestoreUndo (sx spx sy spy : ℤ) : List Effect :=
  [Effect.scrollTo (sx + spx) (sy + spy)]

theorem restoreN_disarmed (undo : List Effect) (n : ℕ) :
    restoreN undo n ⟨false⟩ = (⟨false⟩, []) := by
  induction n with
  | zero => rfl
  | succ n ih => simp [restoreN, restoreOnce, ih]

/-- The idempotence property of claim C5 for a given undo list: calling
restore `n` times equals calling it once, the single call performs
exactly the undo work, and a disarmed call performs no effect. -/
def C5Restore (undo : List Effect) (n : ℕ) : Prop :=
  restoreN undo n ⟨true⟩ = restoreN undo 1 ⟨true⟩ ∧
  restoreN undo 1 ⟨true⟩ = (⟨false⟩, undo) ∧
  restoreOnce undo ⟨false⟩ = (⟨false⟩, [])

theorem restore_idempotent (undo : List Effect) (n : ℕ) (h : 1 ≤ n) :
    C5Restore undo n := by
  refine ⟨?_, ?_, rfl⟩
  · obtain ⟨k, rfl⟩ : ∃ k, n = k + 1 := ⟨n - 1, by omega⟩
    simp [restoreN, restoreOnce, restoreN_disarmed]
  · simp [restoreN, restoreOnce]

/-- C5: for both scroll-compensation strategies, calling the restore
function `n >= 1` times yields the same final state and the same
sequence of restoring effects as calling it once; the first call does
all the undo work and later calls are no-ops. -/
theorem c5_restore_idempotent (tasks : List ℕ) (sx spx sy spy : ℤ) (n : ℕ)
    (h : 1 ≤ n) :
    C5Restore (cssRestoreUndo tasks sx spx sy spy) n ∧
    C5Restore (jsRestoreUndo sx spx sy spy) n :=
  ⟨restore_idempotent _ n h, restore_idempotent _ n h⟩

/-- Witness for C5 with one recorded overlay and three calls. -/
theorem c5_witness :
    1 ≤ 3 ∧
    (C5Restore (cssRestoreUndo [7] 1 2 3 4) 3 ∧ C5Restore (jsRestoreUndo 1 2 3 4) 3) :=
  ⟨by norm_num, c5_restore_idempotent [7] 1 2 3 4 3 (by norm_num)⟩

/-- Lines 285 to 286 (transform-based strategy): the target scroll
coordinates `_sx`, `_sy` for a tile at `(x, y)` of size `(w, h)` on a
page of size `(pw, ph)`, per overflow direction. -/
def updateScroll_css (dirx diry : Bool) (x y w h pw ph : ℤ) : ℤ × ℤ :=
  ((if dirx then x else -(pw - x) + w), (if diry then y else -(ph - y) + h))

/-- Lines 318 to 319 (scroll-based strategy): the same computation. -/
def updateScroll_js (dirx diry : Bool) (x y w h pw ph : ℤ) : ℤ × ℤ :=
  ((if dirx then x else -(pw - x) + w), (if diry then y else -(ph - y) + h))

/-- Modelled from the spec: target is the tile origin when the
direction is positive, and `-(pageSize - tileOrigin) + tileSize` when
it is negative. -/
def specScrollTarget (dirPos : Bool) (origin size pageSize : ℤ) : ℤ :=
  if dirPos then origin else -(pageSize - origin) + size

/-- The coordinate agreement of claim C6 for given inputs. -/
def C6Targets (dirx diry : Bool) (x y w h pw ph : ℤ) : Prop :=
  updateScroll_css dirx diry x y w h pw ph =
    (specScrollTarget dirx x w pw, specScrollTarget diry y h ph) ∧
  updateScroll_js dirx diry x y w h pw ph =
    (specScrollTarget dirx x w pw, specScrollTarget diry y h ph)

/-- C6: both scroll-compensation strategies compute the per-axis target
scroll coordinate as the tile origin for a positive direction and as
`-(pageSize - tileOrigin) + tileSize` for a negative one. -/
theorem c6_scroll_targets (dirx diry : Bool) (x y w h pw ph : ℤ) :
    C6Targets dirx diry x y w h pw ph :=
  ⟨rfl, rfl⟩

/-- `Uint8Array.prototype.set(src, off)` for a source of length `len`:
bytes `[off, off + len)` take the source values, the rest keep the old
buffer values. -/
def setBytes (buf src : ℕ → ℕ) (off len : ℕ) : ℕ → ℕ :=
  fun a => if off ≤ a ∧ a < off + len then src (a - off) else buf a

/-- `getImageData(0, 0, rowLen / 4 pixels, rows).data`: the row-major
flattening of a tile image whose rows are `rowLen` bytes long. -/
def flatImage (data : ℕ → ℕ → ℕ) (rowLen : ℕ) : ℕ → ℕ :=
  fun n => data (n / rowLen) (n % rowLen)

/-- Lines 458 to 460: the bulk branch writes the whole decoded block of
a tile (rows of `w * scl * 4` bytes, `h * scl` rows) at byte offset
`y * rw * scl * 4`. -/
def bulkCopy (buf : ℕ → ℕ) (data : ℕ → ℕ → ℕ) (y rw w h scl : ℕ) : ℕ → ℕ :=
  setBytes buf (flatImage data (w * scl * 4)) (y * rw * scl * 4) (h * scl * (w * scl * 4))

/-- Lines 461 to 466: the row branch writes row `i` of the decoded tile
(`w * scl * 4` bytes) at byte offset `((y + i) * rw * scl + x) * 4`,
for `i` from 0 to the given row count. -/
def rowCopy (buf : ℕ → ℕ) (data : ℕ → ℕ → ℕ) (x y rw w scl : ℕ) : ℕ → ℕ → ℕ
  | 0 => buf
  | i + 1 =>
      setBytes (rowCopy buf data x y rw w scl i) (data i)
        (((y + i) * rw * scl + x) * 4) (w * scl * 4)

theorem rowCopy_full_width (buf : ℕ → ℕ) (data : ℕ → ℕ → ℕ) (y rw scl : ℕ) :
    ∀ (m : ℕ) (addr : ℕ),
      rowCopy buf data 0 y rw rw scl m addr =
        setBytes buf (flatImage data (rw * scl * 4)) (y * rw * scl * 4)
          (m * (rw * scl * 4)) addr := by
  intro m
  induction m with
  | zero =>
      intro addr
      show buf addr = _
      unfold setBytes
      rw [if_neg (by omega)]
  | succ m ih =>
      intro addr
      show setBytes (rowCopy buf data 0 y rw rw scl m) (data m)
          (((y + m) * rw * scl + 0) * 4) (rw * scl * 4) addr = _
      have e1 : ((y + m) * rw * scl + 0) * 4 =
          y * rw * scl * 4 + m * (rw * scl * 4) := by ring
      have e2 : (m + 1) * (rw * scl * 4) =
          m * (rw * scl * 4) + rw * scl * 4 := by ring
      unfold setBytes flatImage
      rw [ih addr]
      unfold setBytes flatImage
      rw [e1, e2]
      split_ifs with h1 h2 h3 h4 h5
      · -- inside row m on both sides: div and mod pick out row m
        have hB0 : 0 < rw * scl * 4 := by omega
        have hrlt : addr - y * rw * scl * 4 - m * (rw * scl * 4) < rw * scl * 4 := by
          omega
        have hr : addr - y * rw * scl * 4 =
            (addr - y * rw * scl * 4 - m * (rw * scl * 4)) + m * (rw * scl * 4) := by
          omega
        have hdiv : (addr - y * rw * scl * 4) / (rw * scl * 4) = m := by
          rw [hr, Nat.add_mul_div_right _ _ hB0, Nat.div_eq_of_lt hrlt, Nat.zero_add]
        have hmod : (addr - y * rw * scl * 4) % (rw * scl * 4) =
            addr - y * rw * scl * 4 - m * (rw * scl * 4) := by
          rw [hr, Nat.add_mul_mod_self_right, Nat.mod_eq_of_lt hrlt]
          omega
        rw [hdiv, hmod]
        congr 1
        omega
      · exact absurd (by omega : y * rw * scl * 4 ≤ addr ∧
          addr < y * rw * scl * 4 + (m * (rw * scl * 4) + rw * scl * 4)) h2
      · rfl
      · exact absurd (by omega : y * rw * scl * 4 ≤ addr ∧
          addr < y * rw * scl * 4 + (m * (rw * scl * 4) + rw * scl * 4)) h4
      · omega
      · rfl

/-- The agreement property of claim C10: on a full-width tile the bulk
branch and the row-by-row branch produce the same final buffer at every
address. -/
def C10Copy (buf : ℕ → ℕ) (data : ℕ → ℕ → ℕ) (x y rw w h scl : ℕ) : Prop :=
  ∀ addr, bulkCopy buf data y rw w h scl addr =
    rowCopy buf data x y rw w scl (h * scl) addr

/-- C10: for every full-width tile (`x = 0` and `w = rw`), the bulk copy
at byte offset `y * rw * scl * 4` leaves exactly the same buffer
contents as the row-by-row branch writing row `i` at
`((y + i) * rw * scl + x) * 4`. -/
theorem c10_copy_equiv (buf : ℕ → ℕ) (data : ℕ → ℕ → ℕ) (x y rw w h scl : ℕ)
    (hx : x = 0) (hw : w = rw) : C10Copy buf data x y rw w h scl := by
  subst hx
  subst hw
  intro addr
  exact (rowCopy_full_width buf data y _ scl (h * scl) addr).symm

/-- Witness for C10 on a 7 x 2 full-width tile at row 3, scale 1. -/
theorem c10_witness :
    (0 : ℕ) = 0 ∧ (7 : ℕ) = 7 ∧
    C10Copy (fun _ => 0) (fun _ _ => 0) 0 3 7 7 2 1 :=
  ⟨rfl, rfl, c10_copy_equiv (fun _ => 0) (fun _ _ => 0) 0 3 7 7 2 1 rfl rfl⟩

end Screenshot
